import Mathlib

/-!
# Verification of the syncread core against its specification

Shallow embedding of the syncread repository's core logic:

* `src/mpv/controller.rs` — the MPV IPC client (`send_command` request
  correlation, typed getters with defaults);
* `src/network/protocol.rs` — `UserState`, `SyncEvent`, `SyncMessage`,
  `SessionState` (sync check, serde-derived JSON encoding);
* `src/network/sync_client.rs` — the position-validation state machine
  (`validate_position_change`).

Pure data is translated directly; stateful Rust methods become functions
from the pre-state (plus inputs) to a result paired with the post-state.
Machine integers are modelled as `Int`/`Nat`; overflow is modelled
explicitly (`% 2 ^ 32`) where the source increments a fixed-width counter.
Floating-point payloads (`f64`) are carried opaquely as `Float`: no claim
depends on float arithmetic, only on values being stored and read back.
-/

/-- JSON value tree, mirroring `serde_json::Value`.  `serde_json`'s
`Number` distinguishes integer-backed from float-backed numbers
(`as_i64` succeeds only on the former, `as_f64` on both), so the model
keeps two numeric constructors. -/
inductive Json where
  | null
  | jbool (b : Bool)
  | jint (n : Int)
  | jfloat (x : Float)
  | jstr (s : String)
  | jarr (elems : List Json)
  | jobj (fields : List (String × Json))
deriving Repr

/-- `Value::as_i64`: integer-backed numbers inside the `i64` range. -/
def Json.as_i64 : Json → Option Int
  | .jint n => if -(2 ^ 63) ≤ n ∧ n < 2 ^ 63 then some n else none
  | _ => none

/-- `Value::as_f64`: any number converts to `f64`. -/
def Json.as_f64 : Json → Option Float
  | .jint n => some (Float.ofInt n)
  | .jfloat x => some x
  | _ => none

/-- `Value::as_bool`. -/
def Json.as_bool : Json → Option Bool
  | .jbool b => some b
  | _ => none

/-- `MpvResponse` from `src/mpv/controller.rs`: `error` defaults to `""`,
`data` and `request_id` are optional.  `request_id` is `u32`, modelled as
`Nat`. -/
structure MpvResponse where
  error : String
  data : Option Json
  request_id : Option Nat
deriving Repr

/-- `MpvCommand` from `src/mpv/controller.rs`. -/
structure MpvCommand where
  command : List Json
  request_id : Option Nat
deriving Repr

/-- One line read from the IPC stream, classified the way
`send_command`'s loop classifies it: blank after trimming (also what an
EOF read yields), non-blank but not parseable as `MpvResponse`, or a
parsed response. -/
inductive IpcLine where
  | blank
  | malformed
  | response (r : MpvResponse)
deriving Repr

/-- The mutable controller state `send_command` touches: the `u32`
request-id counter `next_request_id`. -/
structure ControllerState where
  next_request_id : Nat
deriving Repr

/-- Result of one `send_command` call: the command object written to the
socket, the outcome (`none` = `Err`), and the post-state. -/
structure SendResult where
  sent : MpvCommand
  result : Option MpvResponse
  state : ControllerState
deriving Repr

/-- The response-reading loop of `send_command`
(`src/mpv/controller.rs:214-245`): up to `fuel` (= 10) read attempts;
a blank line or a parse failure consumes an attempt and continues; a
parsed response is returned iff its `request_id` equals `rid`, otherwise
it is skipped.  Reading past the end of `lines` models EOF, which
`read_line` reports as an empty line.  Exhausting the attempts is the
`bail!` error, modelled as `none`. -/
def read_response_loop (rid : Nat) : Nat → List IpcLine → Option MpvResponse
  | 0, _ => none
  | fuel + 1, [] => read_response_loop rid fuel []
  | fuel + 1, line :: rest =>
    match line with
    | .blank => read_response_loop rid fuel rest
    | .malformed => read_response_loop rid fuel rest
    | .response r =>
      if r.request_id = some rid then some r
      else read_response_loop rid fuel rest

/-- `send_command` (`src/mpv/controller.rs:191-251`): assigns the current
`next_request_id`, increments the counter (a `u32`, hence `% 2 ^ 32`),
writes `{command, request_id}` and runs the 10-attempt read loop.  The
lines that will arrive on the stream are an explicit argument. -/
def send_command (st : ControllerState) (command : List Json)
    (lines : List IpcLine) : SendResult :=
  let request_id := st.next_request_id
  { sent := { command := command, request_id := some request_id }
    result := read_response_loop request_id 10 lines
    state := { next_request_id := (request_id + 1) % 2 ^ 32 } }

/-- Extractor used to state the correlation property: a line yields a
response for `rid` iff it parses and carries exactly that id. -/
def matching_response (rid : Nat) : IpcLine → Option MpvResponse
  | .response r => if r.request_id = some rid then some r else none
  | _ => none

/-- Specification-side description of the loop: the first matching
response among the first 10 lines, if any. -/
def first_matching_response (rid : Nat) (lines : List IpcLine) :
    Option MpvResponse :=
  (lines.take 10).findSome? (matching_response rid)

lemma read_response_loop_eq_findSome (rid : Nat) (fuel : Nat)
    (lines : List IpcLine) :
    read_response_loop rid fuel lines =
      (lines.take fuel).findSome? (matching_response rid) := by
  induction fuel generalizing lines with
  | zero => simp [read_response_loop]
  | succ n ih =>
    cases lines with
    | nil => simpa [read_response_loop] using ih []
    | cons l rest =>
      cases l with
      | blank => simp [read_response_loop, ih, matching_response]
      | malformed => simp [read_response_loop, ih, matching_response]
      | response r =>
        by_cases h : r.request_id = some rid <;>
          simp [read_response_loop, ih, matching_response, h]

/-- **C1.** `send_command` stamps the outgoing command with the current
`next_request_id`, advances the counter, and its outcome is exactly the
first parseable response with that id among the (at most 10) lines read:
blank and unparseable lines are skipped, responses with any other id are
discarded, and if no matching response occurs within the 10 lines read
the call errors (`none`). -/
theorem send_command_correlates (st : ControllerState) (command : List Json)
    (lines : List IpcLine) :
    (send_command st command lines).sent.request_id = some st.next_request_id ∧
    (send_command st command lines).result =
      first_matching_response st.next_request_id lines ∧
    (send_command st command lines).state.next_request_id =
      (st.next_request_id + 1) % 2 ^ 32 := by
  refine ⟨rfl, ?_, rfl⟩
  simp [send_command, first_matching_response, read_response_loop_eq_findSome]

/-- The position-validator state owned by `SyncClient`
(`src/network/sync_client.rs:18-19`): `last_known_position : Option<i32>`
and `pending_position : Option<(i32, u8)>` (candidate, retry count). -/
structure ValidatorState where
  last_known_position : Option Int
  pending_position : Option (Int × Nat)
deriving Repr, DecidableEq

/-- `SyncClient::new` starts with both fields `None`
(`src/network/sync_client.rs:24-32`). -/
def initial_validator_state : ValidatorState :=
  { last_known_position := none, pending_position := none }

/-- `validate_position_change` (`src/network/sync_client.rs:415-494`),
returning the bool the Rust function returns paired with the post-state.
Mirrors the source line by line: unseeded bootstrap, bounds rejection,
small-jump accept, forward accept, glitch rejection, the pending retry
machinery for large backward jumps, and the moderate-backward accept. -/
def validate_position_change (st : ValidatorState) (new_position : Int)
    (playlist_length : Nat) : Bool × ValidatorState :=
  match st.last_known_position with
  | none =>
    -- no last known position: accept any in-bounds position
    if 0 ≤ new_position ∧ new_position < (playlist_length : Int) then
      (true, { last_known_position := some new_position,
               pending_position := none })
    else
      (false, st)
  | some last =>
    -- reject jumping to invalid positions (clears pending)
    if new_position < 0 ∨ (playlist_length : Int) ≤ new_position then
      (false, { st with pending_position := none })
    else
      let position_diff := (new_position - last).natAbs
      -- always allow small jumps (≤ 3)
      if position_diff ≤ 3 then
        (true, { last_known_position := some new_position,
                 pending_position := none })
      -- allow larger forward jumps
      else if last < new_position then
        (true, { last_known_position := some new_position,
                 pending_position := none })
      -- large backward jumps: retry mechanism
      else if 10 < position_diff then
        -- obvious glitch: middle/end snapping back to the start
        if 5 < last ∧ new_position ≤ 1 then
          (false, { st with pending_position := none })
        else
          match st.pending_position with
          | some (pending_pos, count) =>
            if pending_pos = new_position then
              -- same position persists: increment retry count,
              -- accept after 2 consistent readings
              if 2 ≤ count + 1 then
                (true, { last_known_position := some new_position,
                         pending_position := none })
              else
                (false, { st with
                          pending_position := some (pending_pos, count + 1) })
            else
              (false, { st with pending_position := some (new_position, 1) })
          | none =>
            (false, { st with pending_position := some (new_position, 1) })
      -- moderate backward jumps (4..10) are accepted
      else
        (true, { last_known_position := some new_position,
                 pending_position := none })

/-- **C2.** Confirmation protocol for large backward jumps.  With
`last` known, an in-bounds candidate `p` with `last - p > 10` that is not
the glitch shape (`last > 5 ∧ p ≤ 1`): when `pending` does not already
hold `p`, the call rejects, keeps `last`, and records `(p, 1)`; from a
state whose `pending` holds `p` (count ≥ 1, as a preceding call leaves
it), the call with the same `p` accepts, sets `last := p` and clears
`pending`; and from pending `(p, 1)` a different such candidate `q ≠ p`
rejects and resets `pending` to `(q, 1)`. -/
theorem validate_large_backward_confirmation
    (last p q : Int) (len : Nat) (pend : Option (Int × Nat)) (c : Nat)
    (hp0 : 0 ≤ p) (hplen : p < (len : Int))
    (hpdiff : 10 < last - p) (hpglitch : ¬(5 < last ∧ p ≤ 1))
    (hq0 : 0 ≤ q) (hqlen : q < (len : Int))
    (hqdiff : 10 < last - q) (hqglitch : ¬(5 < last ∧ q ≤ 1))
    (hqp : q ≠ p) (hc : 1 ≤ c) :
    ((∀ k, pend ≠ some (p, k)) →
      validate_position_change ⟨some last, pend⟩ p len =
        (false, ⟨some last, some (p, 1)⟩)) ∧
    validate_position_change ⟨some last, some (p, c)⟩ p len =
      (true, ⟨some p, none⟩) ∧
    validate_position_change ⟨some last, some (p, 1)⟩ q len =
      (false, ⟨some last, some (q, 1)⟩) := by
  have hlt : p < last := by omega
  have habs : (p - last).natAbs = (last - p).natAbs := by omega
  have hdiff3 : ¬((p - last).natAbs ≤ 3) := by omega
  have hdiff10 : 10 < (p - last).natAbs := by omega
  have hqabs : ¬((q - last).natAbs ≤ 3) := by omega
  have hqdiff10 : 10 < (q - last).natAbs := by omega
  have hqlt : ¬(last < q) := by omega
  refine ⟨?_, ?_, ?_⟩
  · intro hpend
    cases pend with
    | none =>
      simp [validate_position_change, hp0, hplen, hdiff3, hdiff10,
        not_lt.mpr (le_of_lt hlt), hpglitch, not_le.mpr hplen]
    | some pr =>
      obtain ⟨pp, k⟩ := pr
      have hne : pp ≠ p := fun h => hpend k (by simp [h])
      simp [validate_position_change, hp0, hplen, hdiff3, hdiff10,
        not_lt.mpr (le_of_lt hlt), hpglitch, not_le.mpr hplen, hne]
  · simp [validate_position_change, hp0, hplen, hdiff3, hdiff10,
      not_lt.mpr (le_of_lt hlt), hpglitch, not_le.mpr hplen, hc]
  · have hq0' : ¬(q < 0) := not_lt.mpr hq0
    have hpq : p ≠ q := Ne.symm hqp
    simp [validate_position_change, hq0', hqlen, hqabs, hqdiff10,
      hqlt, hqglitch, not_le.mpr hqlen, hpq]

/-- Witness for C2 at `last = 20`, `p = 5`, `q = 6`, `len = 30`,
empty pending. -/
theorem validate_large_backward_confirmation_witness :
    validate_position_change ⟨some 20, none⟩ 5 30 =
      (false, ⟨some 20, some (5, 1)⟩) ∧
    validate_position_change ⟨some 20, some (5, 1)⟩ 5 30 =
      (true, ⟨some 5, none⟩) ∧
    validate_position_change ⟨some 20, some (5, 1)⟩ 6 30 =
      (false, ⟨some 20, some (6, 1)⟩) := by
  obtain ⟨h1, h2, h3⟩ :=
    validate_large_backward_confirmation 20 5 6 30 none 1
      (by decide) (by decide) (by decide) (by decide)
      (by decide) (by decide) (by decide) (by decide) (by decide) (by decide)
  exact ⟨h1 (by intro k h; simp at h), h2, h3⟩

/-- **C3.** Glitch signature: with `last > 5` known, an in-bounds
candidate `p ≤ 1` at distance more than 10 is rejected outright,
`last` is kept and `pending` is cleared — it never becomes a pending
candidate and is never accepted. -/
theorem validate_glitch_rejected (last p : Int) (len : Nat)
    (pend : Option (Int × Nat))
    (hlast : 5 < last) (hp1 : p ≤ 1) (hp0 : 0 ≤ p) (hplen : p < (len : Int))
    (hdiff : 10 < (p - last).natAbs) :
    validate_position_change ⟨some last, pend⟩ p len =
      (false, ⟨some last, none⟩) := by
  have hb : ¬(p < 0 ∨ (len : Int) ≤ p) := by omega
  have h3 : ¬((p - last).natAbs ≤ 3) := by omega
  have hfwd : ¬(last < p) := by omega
  simp [validate_position_change, hb, h3, hfwd, hdiff, hlast, hp1]

/-- Witness for C3 at `last = 20`, `p = 0`, `len = 30`, with a stale
pending entry that gets cleared. -/
theorem validate_glitch_rejected_witness :
    validate_position_change ⟨some 20, some (3, 1)⟩ 0 30 =
      (false, ⟨some 20, none⟩) :=
  validate_glitch_rejected 20 0 30 (some (3, 1))
    (by decide) (by decide) (by decide) (by decide) (by decide)

/-- **C4.** Immediate accepts: with `last` known and `p` in bounds, a
small jump (`|p - last| ≤ 3`), any forward jump (`p - last > 3`), or a
moderate backward jump (`4 ≤ last - p ≤ 10`) is accepted, `last`
becomes `p`, and `pending` is cleared. -/
theorem validate_immediate_accepts (last p : Int) (len : Nat)
    (pend : Option (Int × Nat))
    (hp0 : 0 ≤ p) (hplen : p < (len : Int))
    (hcase : (p - last).natAbs ≤ 3 ∨ 3 < p - last ∨
      (4 ≤ last - p ∧ last - p ≤ 10)) :
    validate_position_change ⟨some last, pend⟩ p len =
      (true, ⟨some p, none⟩) := by
  have hb : ¬(p < 0 ∨ (len : Int) ≤ p) := by omega
  rcases hcase with h | h | h
  · simp [validate_position_change, hb, h]
  · have h3 : ¬((p - last).natAbs ≤ 3) := by omega
    have hfwd : last < p := by omega
    simp [validate_position_change, hb, h3, hfwd]
  · have h3 : ¬((p - last).natAbs ≤ 3) := by omega
    have hfwd : ¬(last < p) := by omega
    have h10 : ¬(10 < (p - last).natAbs) := by omega
    simp [validate_position_change, hb, h3, hfwd, h10]

/-- Witness for C4: from `last = 5`, candidates `6` (small), `50`
(forward) and `1` (moderate backward) are all accepted. -/
theorem validate_immediate_accepts_witness :
    validate_position_change ⟨some 5, none⟩ 6 60 = (true, ⟨some 6, none⟩) ∧
    validate_position_change ⟨some 5, none⟩ 50 60 = (true, ⟨some 50, none⟩) ∧
    validate_position_change ⟨some 5, some (2, 1)⟩ 1 60 =
      (true, ⟨some 1, none⟩) :=
  ⟨validate_immediate_accepts 5 6 60 none (by decide) (by decide)
      (Or.inl (by decide)),
    validate_immediate_accepts 5 50 60 none (by decide) (by decide)
      (Or.inr (Or.inl (by decide))),
    validate_immediate_accepts 5 1 60 (some (2, 1)) (by decide) (by decide)
      (Or.inr (Or.inr (by decide)))⟩

/-- **C5.** Frame condition: whenever `validate_position_change` returns
`true` the post-state's `last_known_position` is `some` of the candidate,
and whenever it returns `false` the post-state's `last_known_position`
equals the pre-state's. -/
theorem validate_accept_iff_sets_last (st : ValidatorState) (p : Int)
    (len : Nat) :
    ((validate_position_change st p len).1 = true →
      (validate_position_change st p len).2.last_known_position = some p) ∧
    ((validate_position_change st p len).1 = false →
      (validate_position_change st p len).2.last_known_position =
        st.last_known_position) := by
  obtain ⟨last, pend⟩ := st
  cases last with
  | none =>
    by_cases hb : 0 ≤ p ∧ p < (len : Int) <;>
      simp [validate_position_change, hb]
  | some l =>
    by_cases hb : p < 0 ∨ (len : Int) ≤ p
    · simp [validate_position_change, hb]
    · by_cases h3 : (p - l).natAbs ≤ 3
      · simp [validate_position_change, hb, h3]
      · by_cases hfwd : l < p
        · simp [validate_position_change, hb, h3, hfwd]
        · by_cases h10 : 10 < (p - l).natAbs
          · by_cases hg : 5 < l ∧ p ≤ 1
            · simp [validate_position_change, hb, h3, hfwd, h10, hg]
            · cases pend with
              | none =>
                simp [validate_position_change, hb, h3, hfwd, h10, hg]
              | some pr =>
                obtain ⟨pp, cnt⟩ := pr
                by_cases hpp : pp = p
                · by_cases hc : 2 ≤ cnt + 1 <;>
                    simp [validate_position_change, hb, h3, hfwd, h10, hg,
                      hpp, hc]
                · simp [validate_position_change, hb, h3, hfwd, h10, hg, hpp]
          · simp [validate_position_change, hb, h3, hfwd, h10]

/-- Witness for C5 at an accepting and a rejecting call. -/
theorem validate_accept_iff_sets_last_witness :
    (validate_position_change ⟨some 5, none⟩ 6 30).2.last_known_position =
      some 6 ∧
    (validate_position_change ⟨some 20, none⟩ 5 30).2.last_known_position =
      some 20 :=
  ⟨(validate_accept_iff_sets_last ⟨some 5, none⟩ 6 30).1 (by decide),
    (validate_accept_iff_sets_last ⟨some 20, none⟩ 5 30).2 (by decide)⟩

/-- **C6 counterexample.** The claim asserts every out-of-bounds
candidate leaves `pending_position` cleared; but in the unseeded branch
(`last_known_position = none`) the source returns `false` without
touching `pending`: from state `(none, some (0, 1))`, candidate `-1`
against playlist length 5 is rejected with `pending` still `some (0,1)`,
not `none`. -/
theorem validate_out_of_bounds_counterexample :
    (validate_position_change ⟨none, some (0, 1)⟩ (-1) 5).1 = false ∧
    (validate_position_change ⟨none, some (0, 1)⟩ (-1) 5).2.pending_position =
      some (0, 1) := by
  decide

/-- **C6 amended.** An out-of-bounds candidate is rejected with
`last_known_position` unchanged; `pending_position` is cleared when a
last position is known, and left untouched in the unseeded branch (where
it is `none` anyway in every reachable state).  When
`last_known_position` is `none`, every in-bounds candidate is accepted
and becomes the new last position. -/
theorem validate_bounds_amended (st : ValidatorState) (p : Int) (len : Nat) :
    ((p < 0 ∨ (len : Int) ≤ p) →
      (validate_position_change st p len).1 = false ∧
      (validate_position_change st p len).2.last_known_position =
        st.last_known_position ∧
      (st.last_known_position.isSome →
        (validate_position_change st p len).2.pending_position = none) ∧
      (st.last_known_position = none →
        (validate_position_change st p len).2.pending_position =
          st.pending_position)) ∧
    (st.last_known_position = none → 0 ≤ p → p < (len : Int) →
      validate_position_change st p len = (true, ⟨some p, none⟩)) := by
  obtain ⟨last, pend⟩ := st
  constructor
  · intro hout
    cases last with
    | none =>
      have hb : ¬(0 ≤ p ∧ p < (len : Int)) := by omega
      simp [validate_position_change, hb]
    | some l =>
      simp [validate_position_change, hout]
  · intro hnone hp0 hplen
    cases last with
    | none => simp [validate_position_change, hp0, hplen]
    | some l => simp at hnone

/-- Witness for the amended C6: out-of-bounds rejection from a seeded
state, and unseeded bootstrap acceptance. -/
theorem validate_bounds_amended_witness :
    (validate_position_change ⟨some 3, some (2, 1)⟩ 7 5).1 = false ∧
    validate_position_change ⟨none, none⟩ 2 5 = (true, ⟨some 2, none⟩) :=
  ⟨((validate_bounds_amended ⟨some 3, some (2, 1)⟩ 7 5).1
      (Or.inr (by decide))).1,
    (validate_bounds_amended ⟨none, none⟩ 2 5).2 rfl (by decide) (by decide)⟩

/-- States the validator can be in, starting from `SyncClient::new` and
applying any sequence of `validate_position_change` calls. -/
inductive ReachableValidator : ValidatorState → Prop
  | init : ReachableValidator initial_validator_state
  | step (st : ValidatorState) (p : Int) (len : Nat) :
      ReachableValidator st →
      ReachableValidator (validate_position_change st p len).2

/-- The invariant of C10: any pending entry carries count exactly 1, and
only exists alongside a known last position. -/
def pending_invariant (st : ValidatorState) : Prop :=
  ∀ p c, st.pending_position = some (p, c) →
    c = 1 ∧ st.last_known_position.isSome

lemma validate_preserves_pending_invariant (st : ValidatorState) (p : Int)
    (len : Nat) (h : pending_invariant st) :
    pending_invariant (validate_position_change st p len).2 := by
  obtain ⟨last, pend⟩ := st
  intro q c hq
  cases last with
  | none =>
    by_cases hb : 0 ≤ p ∧ p < (len : Int)
    · simp [validate_position_change, hb] at hq
    · simp only [validate_position_change, if_neg hb] at hq
      exact absurd (h q c hq).2 (by simp)
  | some l =>
    by_cases hb : p < 0 ∨ (len : Int) ≤ p
    · simp [validate_position_change, hb] at hq
    · by_cases h3 : (p - l).natAbs ≤ 3
      · simp [validate_position_change, hb, h3] at hq
      · by_cases hfwd : l < p
        · simp [validate_position_change, hb, h3, hfwd] at hq
        · by_cases h10 : 10 < (p - l).natAbs
          · by_cases hg : 5 < l ∧ p ≤ 1
            · simp [validate_position_change, hb, h3, hfwd, h10, hg] at hq
            · cases pend with
              | none =>
                have heq : validate_position_change ⟨some l, none⟩ p len =
                    (false, ⟨some l, some (p, 1)⟩) := by
                  simp [validate_position_change, hb, h3, hfwd, h10, hg]
                rw [heq] at hq ⊢
                simp only [Option.some.injEq, Prod.mk.injEq] at hq
                simp [← hq.2]
              | some pr =>
                obtain ⟨pp, cnt⟩ := pr
                have hcnt : cnt = 1 := (h pp cnt rfl).1
                subst hcnt
                by_cases hpp : pp = p
                · have heq : validate_position_change
                      ⟨some l, some (pp, 1)⟩ p len =
                      (true, ⟨some p, none⟩) := by
                    simp [validate_position_change, hb, h3, hfwd, h10, hg, hpp]
                  rw [heq] at hq
                  simp at hq
                · have heq : validate_position_change
                      ⟨some l, some (pp, 1)⟩ p len =
                      (false, ⟨some l, some (p, 1)⟩) := by
                    simp [validate_position_change, hb, h3, hfwd, h10, hg, hpp]
                  rw [heq] at hq ⊢
                  simp only [Option.some.injEq, Prod.mk.injEq] at hq
                  simp [← hq.2]
          · simp [validate_position_change, hb, h3, hfwd, h10] at hq

/-- **C10.** In every validator state reachable from the initial state,
a pending entry `(p, c)` has `c = 1` exactly and coexists with a known
last position: the call that would raise the count to 2 accepts and
clears `pending` before returning, so a count of 2 is never observable
between calls. -/
theorem reachable_pending_count_one (st : ValidatorState) (p : Int) (c : Nat)
    (h : ReachableValidator st)
    (hp : st.pending_position = some (p, c)) :
    c = 1 ∧ st.last_known_position.isSome := by
  suffices hinv : pending_invariant st from hinv p c hp
  clear hp p c
  induction h with
  | init =>
    intro q k hq
    simp [initial_validator_state] at hq
  | step st' q len _ ih =>
    exact validate_preserves_pending_invariant st' q len ih

/-- Witness for C10 at the two-step reachable state
`(some 20, some (5, 1))`. -/
theorem reachable_pending_count_one_witness :
    1 = 1 ∧
    ((validate_position_change
        (validate_position_change initial_validator_state 20 30).2
        5 30).2.last_known_position).isSome :=
  reachable_pending_count_one _ 5 1
    (ReachableValidator.step _ 5 30
      (ReachableValidator.step _ 20 30 ReachableValidator.init))
    (by decide)

/-- `UserState` from `src/network/protocol.rs:10-18`.  `playlist_position`
is `i32`, `timestamp` is `u64`, `playback_time` is `f64` (carried as
`Float`); `current_file` is a path, carried as its string. -/
structure UserState where
  user_id : String
  playlist_position : Int
  current_file : Option String
  current_file_name : Option String
  playback_time : Float
  is_paused : Bool
  timestamp : Nat

/-- `SessionState` from `src/network/protocol.rs:151-154`: the
`HashMap<UserId, UserState>` is modelled as an association list (keys
unique in any state the code builds; iteration order is irrelevant to
the claims proved here). -/
structure SessionState where
  users : List (String × UserState)
  created_at : Nat

/-- `SessionState::check_sync_status`
(`src/network/protocol.rs:193-206`): trivially true below two users,
otherwise the spread between the extreme playlist positions compared
against the tolerance (`unwrap_or(&0)` is the `.getD 0`; it is never hit
when there are at least two users). -/
def check_sync_status (s : SessionState) (position_tolerance : Int) : Bool :=
  if s.users.length < 2 then
    true
  else
    let positions := s.users.map (fun u => u.2.playlist_position)
    let min_pos := positions.min?.getD 0
    let max_pos := positions.max?.getD 0
    decide (max_pos - min_pos ≤ position_tolerance)

/-- A participant entry carrying only a playlist position, for concrete
sync-check instances. -/
def demo_user (uid : String) (pos : Int) : UserState :=
  { user_id := uid, playlist_position := pos, current_file := none,
    current_file_name := none, playback_time := 0.0, is_paused := true,
    timestamp := 0 }

lemma check_sync_status_true_iff (s : SessionState) (t : Int)
    (hlen : 2 ≤ s.users.length) :
    check_sync_status s t = true ↔
      ∀ u ∈ s.users, ∀ v ∈ s.users,
        u.2.playlist_position - v.2.playlist_position ≤ t := by
  have hne : s.users.map (fun u => u.2.playlist_position) ≠ [] := by
    intro hnil
    have hl := congrArg List.length hnil
    simp only [List.length_map, List.length_nil] at hl
    omega
  cases hmin : (s.users.map (fun u => u.2.playlist_position)).min? with
  | none => exact absurd (List.min?_eq_none_iff.mp hmin) hne
  | some m =>
  cases hmax : (s.users.map (fun u => u.2.playlist_position)).max? with
  | none => exact absurd (List.max?_eq_none_iff.mp hmax) hne
  | some M =>
  have hmle : ∀ b ∈ s.users.map (fun u => u.2.playlist_position), m ≤ b :=
    (List.le_min?_iff (fun a b c => le_min_iff) hmin).mp (le_refl m)
  have hleM : ∀ b ∈ s.users.map (fun u => u.2.playlist_position), b ≤ M :=
    (List.max?_le_iff (fun a b c => max_le_iff) hmax).mp (le_refl M)
  have hmmem : m ∈ s.users.map (fun u => u.2.playlist_position) :=
    List.min?_mem (fun a b => min_choice a b) hmin
  have hMmem : M ∈ s.users.map (fun u => u.2.playlist_position) :=
    List.max?_mem (fun a b => max_choice a b) hmax
  have hval : check_sync_status s t = decide (M - m ≤ t) := by
    simp [check_sync_status, if_neg (by omega : ¬s.users.length < 2),
      hmin, hmax]
  rw [hval]
  simp only [decide_eq_true_eq]
  constructor
  · intro hspread u hu v hv
    have h1 : u.2.playlist_position ≤ M :=
      hleM _ (List.mem_map_of_mem _ hu)
    have h2 : m ≤ v.2.playlist_position :=
      hmle _ (List.mem_map_of_mem _ hv)
    omega
  · intro hpair
    obtain ⟨u, hu, hum⟩ := List.mem_map.mp hMmem
    obtain ⟨v, hv, hvm⟩ := List.mem_map.mp hmmem
    have := hpair u hu v hv
    omega

/-- **C7.** `check_sync_status` is true whenever fewer than two
participants are present; with at least two it is true exactly when
every pair of participants is within `tolerance` playlist positions of
each other (equivalently, max minus min ≤ tolerance); in particular,
with tolerance 1 it is true for two users at positions 5 and 5, false
for positions 5 and 10. -/
theorem check_sync_status_spec (s : SessionState) (t : Int) :
    (s.users.length < 2 → check_sync_status s t = true) ∧
    (2 ≤ s.users.length →
      (check_sync_status s t = true ↔
        ∀ u ∈ s.users, ∀ v ∈ s.users,
          u.2.playlist_position - v.2.playlist_position ≤ t)) ∧
    check_sync_status
      ⟨[("user1", demo_user "user1" 5), ("user2", demo_user "user2" 5)], 0⟩
      1 = true ∧
    check_sync_status
      ⟨[("user1", demo_user "user1" 5), ("user2", demo_user "user2" 10)], 0⟩
      1 = false := by
  refine ⟨fun h => by simp [check_sync_status, h], fun h =>
    check_sync_status_true_iff s t h, by decide, by decide⟩

/-- Witness for C7: the fewer-than-two case and the pairwise
characterization instantiated at a concrete two-user session. -/
theorem check_sync_status_spec_witness :
    check_sync_status ⟨[("solo", demo_user "solo" 42)], 7⟩ 0 = true ∧
    check_sync_status
      ⟨[("a", demo_user "a" 3), ("b", demo_user "b" 4)], 0⟩ 2 = true :=
  ⟨(check_sync_status_spec ⟨[("solo", demo_user "solo" 42)], 7⟩ 0).1
      (by decide),
    ((check_sync_status_spec
        ⟨[("a", demo_user "a" 3), ("b", demo_user "b" 4)], 0⟩ 2).2.1
      (by decide)).mpr (by decide)⟩

/-- `SyncEvent` from `src/network/protocol.rs:80-109`: the closed set of
five event kinds. -/
inductive SyncEvent where
  | UserJoined (user_id : String) (user_state : UserState)
  | UserLeft (user_id : String)
  | StateUpdate (user_state : UserState)
  | UserAction (user_id : String) (action : String) (value : Option Float)
  | Heartbeat (user_id : String) (timestamp : Nat)

/-- `SyncMessage` from `src/network/protocol.rs:113-116`: an event plus
a `u64` sequence number. -/
structure SyncMessage where
  event : SyncEvent
  sequence : Nat

/-- serde encoding of `Option<String>` / `Option<PathBuf>`: `None` is
JSON null, `Some` the plain value. -/
def encode_opt_str : Option String → Json
  | none => .null
  | some s => .jstr s

/-- serde encoding of `Option<f64>`. -/
def encode_opt_f64 : Option Float → Json
  | none => .null
  | some x => .jfloat x

/-- The serde-derived `Serialize` for `UserState`: a JSON object with
one entry per field, in declaration order. -/
def encode_user_state (u : UserState) : Json :=
  .jobj [("user_id", .jstr u.user_id),
    ("playlist_position", .jint u.playlist_position),
    ("current_file", encode_opt_str u.current_file),
    ("current_file_name", encode_opt_str u.current_file_name),
    ("playback_time", .jfloat u.playback_time),
    ("is_paused", .jbool u.is_paused),
    ("timestamp", .jint (u.timestamp : Int))]

/-- Deserializing a JSON string. -/
def decode_str : Json → Option String
  | .jstr s => some s
  | _ => none

/-- Deserializing `Option<String>`: null or a string. -/
def decode_opt_str : Json → Option (Option String)
  | .null => some none
  | .jstr s => some (some s)
  | _ => none

/-- Deserializing `f64`: any JSON number. -/
def decode_f64 : Json → Option Float
  | .jint n => some (Float.ofInt n)
  | .jfloat x => some x
  | _ => none

/-- Deserializing `Option<f64>`. -/
def decode_opt_f64 : Json → Option (Option Float)
  | .null => some none
  | .jint n => some (some (Float.ofInt n))
  | .jfloat x => some (some x)
  | _ => none

/-- Deserializing `bool`. -/
def decode_bool : Json → Option Bool
  | .jbool b => some b
  | _ => none

/-- Deserializing `i32`: an integer-backed number in `i32` range. -/
def decode_i32 : Json → Option Int
  | .jint n => if -(2 ^ 31) ≤ n ∧ n < 2 ^ 31 then some n else none
  | _ => none

/-- Deserializing `u64`: an integer-backed number in `u64` range. -/
def decode_u64 : Json → Option Nat
  | .jint n => if 0 ≤ n ∧ n < 2 ^ 64 then some n.toNat else none
  | _ => none

/-- The serde-derived `Deserialize` for `UserState`, specialized to the
canonical field layout the serializer emits (serde also accepts
reordered fields; the canonical layout is all the round-trip property
exercises). -/
def decode_user_state : Json → Option UserState
  | .jobj [("user_id", juid), ("playlist_position", jpos),
      ("current_file", jcf), ("current_file_name", jcfn),
      ("playback_time", jpt), ("is_paused", jip), ("timestamp", jts)] => do
    let uid ← decode_str juid
    let pos ← decode_i32 jpos
    let cf ← decode_opt_str jcf
    let cfn ← decode_opt_str jcfn
    let pt ← decode_f64 jpt
    let ip ← decode_bool jip
    let ts ← decode_u64 jts
    pure ⟨uid, pos, cf, cfn, pt, ip, ts⟩
  | _ => none

/-- The serde-derived, externally tagged `Serialize` for `SyncEvent`:
`{"VariantName": {fields...}}`. -/
def encode_sync_event : SyncEvent → Json
  | .UserJoined uid ustate =>
    .jobj [("UserJoined", .jobj [("user_id", .jstr uid),
      ("user_state", encode_user_state ustate)])]
  | .UserLeft uid =>
    .jobj [("UserLeft", .jobj [("user_id", .jstr uid)])]
  | .StateUpdate ustate =>
    .jobj [("StateUpdate", .jobj [("user_state", encode_user_state ustate)])]
  | .UserAction uid action value =>
    .jobj [("UserAction", .jobj [("user_id", .jstr uid),
      ("action", .jstr action), ("value", encode_opt_f64 value)])]
  | .Heartbeat uid ts =>
    .jobj [("Heartbeat", .jobj [("user_id", .jstr uid),
      ("timestamp", .jint (ts : Int))])]

/-- The serde-derived `Deserialize` for `SyncEvent`: dispatch on the
single external tag, then read the variant's fields (canonical layout,
as for `UserState`). -/
def decode_sync_event : Json → Option SyncEvent
  | .jobj [("UserJoined", .jobj [("user_id", juid),
      ("user_state", jstate)])] => do
    let uid ← decode_str juid
    let ustate ← decode_user_state jstate
    pure (.UserJoined uid ustate)
  | .jobj [("UserLeft", .jobj [("user_id", juid)])] => do
    let uid ← decode_str juid
    pure (.UserLeft uid)
  | .jobj [("StateUpdate", .jobj [("user_state", jstate)])] => do
    let ustate ← decode_user_state jstate
    pure (.StateUpdate ustate)
  | .jobj [("UserAction", .jobj [("user_id", juid), ("action", jact),
      ("value", jval)])] => do
    let uid ← decode_str juid
    let action ← decode_str jact
    let value ← decode_opt_f64 jval
    pure (.UserAction uid action value)
  | .jobj [("Heartbeat", .jobj [("user_id", juid),
      ("timestamp", jts)])] => do
    let uid ← decode_str juid
    let ts ← decode_u64 jts
    pure (.Heartbeat uid ts)
  | _ => none

/-- The serde-derived `Serialize` for `SyncMessage`. -/
def encode_sync_message (m : SyncMessage) : Json :=
  .jobj [("event", encode_sync_event m.event),
    ("sequence", .jint (m.sequence : Int))]

/-- The serde-derived `Deserialize` for `SyncMessage`. -/
def decode_sync_message : Json → Option SyncMessage
  | .jobj [("event", jev), ("sequence", jseq)] => do
    let ev ← decode_sync_event jev
    let seq ← decode_u64 jseq
    pure ⟨ev, seq⟩
  | _ => none

/-- Values representable by the Rust field types: `playlist_position`
is an `i32`, `timestamp` a `u64`.  (The Lean model widens them to
`Int`/`Nat`; these bounds restore the Rust carriers.) -/
def UserState.wf (u : UserState) : Prop :=
  -(2 ^ 31) ≤ u.playlist_position ∧ u.playlist_position < 2 ^ 31 ∧
    u.timestamp < 2 ^ 64

/-- Rust-representable field values for each event variant. -/
def SyncEvent.wf : SyncEvent → Prop
  | .UserJoined _ ustate => ustate.wf
  | .UserLeft _ => True
  | .StateUpdate ustate => ustate.wf
  | .UserAction _ _ _ => True
  | .Heartbeat _ ts => ts < 2 ^ 64

/-- Rust-representable field values for a whole message. -/
def SyncMessage.wf (m : SyncMessage) : Prop :=
  m.event.wf ∧ m.sequence < 2 ^ 64

lemma decode_u64_natCast (n : Nat) (h : n < 2 ^ 64) :
    decode_u64 (.jint (n : Int)) = some n := by
  simp [decode_u64]
  omega

lemma decode_encode_opt_str (v : Option String) :
    decode_opt_str (encode_opt_str v) = some v := by
  cases v <;> simp [encode_opt_str, decode_opt_str]

lemma decode_encode_opt_f64 (v : Option Float) :
    decode_opt_f64 (encode_opt_f64 v) = some v := by
  cases v <;> simp [encode_opt_f64, decode_opt_f64]

lemma decode_encode_user_state (u : UserState) (h : u.wf) :
    decode_user_state (encode_user_state u) = some u := by
  obtain ⟨uid, pos, cf, cfn, pt, ip, ts⟩ := u
  obtain ⟨h1, h2, h3⟩ := h
  norm_num at h1 h2 h3
  have e1 : decode_i32 (.jint pos) = some pos := by
    simp [decode_i32]
    omega
  simp [encode_user_state, decode_user_state, decode_str, decode_f64,
    decode_bool, e1, decode_u64_natCast ts h3, decode_encode_opt_str]

lemma decode_encode_sync_event (ev : SyncEvent) (h : ev.wf) :
    decode_sync_event (encode_sync_event ev) = some ev := by
  cases ev with
  | UserJoined uid ustate =>
    simp [encode_sync_event, decode_sync_event, decode_str,
      decode_encode_user_state ustate h]
  | UserLeft uid =>
    simp [encode_sync_event, decode_sync_event, decode_str]
  | StateUpdate ustate =>
    simp [encode_sync_event, decode_sync_event,
      decode_encode_user_state ustate h]
  | UserAction uid action value =>
    simp [encode_sync_event, decode_sync_event, decode_str,
      decode_encode_opt_f64]
  | Heartbeat uid ts =>
    simp [encode_sync_event, decode_sync_event, decode_str,
      decode_u64_natCast ts h]

/-- **C8.** Round-trip: for every `SyncMessage` built from any of the
five `SyncEvent` variants, with any Rust-representable field values and
any sequence number, serializing to JSON and deserializing yields the
original message. -/
theorem sync_message_roundtrip (m : SyncMessage) (h : m.wf) :
    decode_sync_message (encode_sync_message m) = some m := by
  obtain ⟨ev, seq⟩ := m
  obtain ⟨hev, hseq⟩ := h
  simp [encode_sync_message, decode_sync_message,
    decode_encode_sync_event ev hev, decode_u64_natCast seq hseq]

/-- Witness for C8 at a concrete `UserJoined` message (the variant with
the richest payload). -/
theorem sync_message_roundtrip_witness :
    SyncMessage.wf ⟨.UserJoined "user1" (demo_user "user1" 5), 1⟩ ∧
    decode_sync_message (encode_sync_message
        ⟨.UserJoined "user1" (demo_user "user1" 5), 1⟩) =
      some ⟨.UserJoined "user1" (demo_user "user1" 5), 1⟩ := by
  have hwf : SyncMessage.wf ⟨.UserJoined "user1" (demo_user "user1" 5), 1⟩ := by
    refine ⟨⟨?_, ?_, ?_⟩, ?_⟩ <;> norm_num [demo_user]
  exact ⟨hwf, sync_message_roundtrip _ hwf⟩

/-- The `i64 as i32` truncating cast in `get_playlist_pos`
(`Ok(pos as i32)`): two's-complement wrap into the `i32` range. -/
def i32_cast (n : Int) : Int :=
  (n + 2 ^ 31) % 2 ^ 32 - 2 ^ 31

/-- `MpvController::get_position` (`src/mpv/controller.rs:280-290`):
issue `get_property playback-time`; on success, return the data as a
float, defaulting to `0.0` when the field is absent or not a number;
fail only when `send_command` fails. -/
def get_position (st : ControllerState) (lines : List IpcLine) :
    Option Float × ControllerState :=
  let res := send_command st [.jstr "get_property", .jstr "playback-time"]
    lines
  match res.result with
  | none => (none, res.state)
  | some response =>
    match response.data with
    | some data =>
      match data.as_f64 with
      | some pos => (some pos, res.state)
      | none => (some 0.0, res.state)
    | none => (some 0.0, res.state)

/-- `MpvController::get_playlist_pos` (`src/mpv/controller.rs:292-302`):
issue `get_property playlist-pos`; default `0` when the data is absent
or not an integer; otherwise the value truncated `as i32`. -/
def get_playlist_pos (st : ControllerState) (lines : List IpcLine) :
    Option Int × ControllerState :=
  let res := send_command st [.jstr "get_property", .jstr "playlist-pos"]
    lines
  match res.result with
  | none => (none, res.state)
  | some response =>
    match response.data with
    | some data =>
      match data.as_i64 with
      | some pos => (some (i32_cast pos), res.state)
      | none => (some 0, res.state)
    | none => (some 0, res.state)

/-- `MpvController::is_paused` (`src/mpv/controller.rs:304-314`): issue
`get_property pause`; default `true` when the data is absent or not a
boolean. -/
def is_paused (st : ControllerState) (lines : List IpcLine) :
    Option Bool × ControllerState :=
  let res := send_command st [.jstr "get_property", .jstr "pause"] lines
  match res.result with
  | none => (none, res.state)
  | some response =>
    match response.data with
    | some data =>
      match data.as_bool with
      | some paused => (some paused, res.state)
      | none => (some true, res.state)
    | none => (some true, res.state)

/-- **C9.** The three typed getters never turn a malformed payload into
an error: they fail exactly when `send_command` fails (same line stream,
any command — the correlation loop ignores the command content), and
when the accepted response's `data` is absent or not of the expected
type they return the defaults `0.0`, `0`, `true` respectively. -/
theorem getters_default (st : ControllerState) (lines : List IpcLine)
    (c : List Json) :
    ((send_command st c lines).result = none →
      (get_position st lines).1 = none ∧
      (get_playlist_pos st lines).1 = none ∧
      (is_paused st lines).1 = none) ∧
    (∀ r, (send_command st c lines).result = some r →
      (get_position st lines).1.isSome ∧
      (get_playlist_pos st lines).1.isSome ∧
      (is_paused st lines).1.isSome ∧
      (r.data.bind Json.as_f64 = none →
        (get_position st lines).1 = some 0.0) ∧
      (r.data.bind Json.as_i64 = none →
        (get_playlist_pos st lines).1 = some 0) ∧
      (r.data.bind Json.as_bool = none →
        (is_paused st lines).1 = some true)) := by
  cases hres : read_response_loop st.next_request_id 10 lines with
  | none =>
    constructor
    · intro _
      simp [get_position, get_playlist_pos, is_paused, send_command, hres]
    · intro r hr
      simp [send_command, hres] at hr
  | some r0 =>
    constructor
    · intro hnone
      simp [send_command, hres] at hnone
    · intro r hr
      simp only [send_command] at hr
      rw [hres] at hr
      obtain rfl : r0 = r := by simpa using hr
      cases hdata : r0.data with
      | none =>
        simp [get_position, get_playlist_pos, is_paused, send_command,
          hres, hdata]
      | some d =>
        refine ⟨?_, ?_, ?_, ?_, ?_, ?_⟩
        · cases hf : d.as_f64 <;>
            simp [get_position, send_command, hres, hdata, hf]
        · cases hi : d.as_i64 <;>
            simp [get_playlist_pos, send_command, hres, hdata, hi]
        · cases hb : d.as_bool <;>
            simp [is_paused, send_command, hres, hdata, hb]
        · intro hnone
          simp only [Option.some_bind] at hnone
          simp [get_position, send_command, hres, hdata, hnone]
        · intro hnone
          simp only [Option.some_bind] at hnone
          simp [get_playlist_pos, send_command, hres, hdata, hnone]
        · intro hnone
          simp only [Option.some_bind] at hnone
          simp [is_paused, send_command, hres, hdata, hnone]

/-- Witness for C9: an accepted response whose `data` field is absent
yields the three defaults. -/
theorem getters_default_witness :
    (get_position ⟨1⟩ [.response ⟨"success", none, some 1⟩]).1 =
      some 0.0 ∧
    (get_playlist_pos ⟨1⟩ [.response ⟨"success", none, some 1⟩]).1 =
      some 0 ∧
    (is_paused ⟨1⟩ [.response ⟨"success", none, some 1⟩]).1 =
      some true := by
  obtain ⟨-, h2⟩ :=
    getters_default ⟨1⟩ [.response ⟨"success", none, some 1⟩] []
  obtain ⟨-, -, -, hf, hi, hb⟩ := h2 ⟨"success", none, some 1⟩ rfl
  exact ⟨hf rfl, hi rfl, hb rfl⟩
